import Mathlib

/- Formal model of the indexify server-next core: the streaming blob upload
path of `src/server-next/src/routes.rs` and the state-store write/read path
of `src/server-next/state_store/src/lib.rs`.  Components of the repository
that are only called from these files (the blob store `put`, the
`state_machine` column writes, the `scanner` reads, the JSON object
conversions) are modelled from the specification and marked as such in
their doc comments. -/

namespace Indexify

/-- A byte is modelled as a `Nat`; a chunk of the upload stream is a list of
bytes. -/
abbrev Bytes := List Nat

/-- Errors of the blob store `put` operation.  Modelled from the spec:
`put` fails with `IOError` if the backing medium cannot be written, or
`StreamError` if the input stream yields an error mid-transfer. -/
inductive PutErr
  | ioError
  | streamError
deriving DecidableEq

/-- Observable events of the upload pipeline, in the order they happen:
folding a chunk into the running digest, and writing a chunk to the backing
medium. -/
inductive Evt
  | hash (c : Bytes)
  | write (c : Bytes)
deriving DecidableEq

/-- The outcome of driving one upload stream through the hashed-stream
wrapper of `create_compute_graph` (routes.rs lines 193-205) composed with
the blob store `put`: the event trace, the bytes folded into the digest,
the bytes written to the backing medium, and either the total size or a
`put` error. -/
structure PutTrace where
  events : List Evt
  hashed : Bytes
  written : Bytes
  result : Except PutErr Nat

/-- One step of the pipeline per stream item, from routes.rs lines 193-205:
when `put` polls the hashed stream, the `map` closure first runs
`hasher.update(&bytes)` and then yields the bytes, which `put` writes.
Modelled from the spec for the `put` side: each chunk is persisted before
the next chunk is requested, and an erroring stream item makes `put`
return `StreamError` with nothing further consumed. -/
def processStream : List (Except Unit Bytes) → PutTrace
  | [] => ⟨[], [], [], Except.ok 0⟩
  | Except.error _ :: _ => ⟨[], [], [], Except.error PutErr.streamError⟩
  | Except.ok c :: rest =>
    let r := processStream rest
    ⟨Evt.hash c :: Evt.write c :: r.events,
     c ++ r.hashed,
     c ++ r.written,
     r.result.map (fun n => c.length + n)⟩

/-! Data model.  `data_model` and `http_objects` are not among the given
source files; their shapes are modelled from the spec (§3). -/

/-- Modelled from the spec: a compute-graph node is a closed tagged union of
two variants; only the variant identity matters to this core. -/
inductive Node
  | computeFn
  | dynamicRouter
deriving DecidableEq

/-- Modelled from the spec: the `data_model::Namespace` record written by
`create_namespace` (name, `created_at` in epoch milliseconds). -/
structure NamespaceRec where
  name : String
  created_at : Nat
deriving DecidableEq

/-- Modelled from the spec: the `data_model::ComputeGraph` record.  `nspace`
renders the source field `namespace`, which is a reserved word in Lean. -/
structure ComputeGraph where
  nspace : String
  name : String
  code_url : String
  nodes : List (String × Node)
  created_at : Nat
deriving DecidableEq

/-- Modelled from the spec: the `http_objects::ComputeGraph` JSON graph
definition submitted by the caller, missing its code reference (§6). -/
structure ComputeGraphDef where
  nspace : String
  name : String
  nodes : List (String × Node)
  created_at : Nat
deriving DecidableEq

/-- Modelled from the spec: `into_data_model(&code_url)` rewrites the
submitted definition into the data-model record, substituting the blob
descriptor's url as the graph's code reference. -/
def ComputeGraphDef.into_data_model (d : ComputeGraphDef) (code_url : String) :
    ComputeGraph :=
  ⟨d.nspace, d.name, code_url, d.nodes, d.created_at⟩

/-! The partitioned store.  Partitions are ordered key-value spaces (§6);
they are modelled as key-sorted association lists. -/

/-- Lexicographic comparison of character data, modelling the byte order
of the embedded store's keys. -/
def strLtB : List Char → List Char → Bool
  | [], [] => false
  | [], _ :: _ => true
  | _ :: _, [] => false
  | a :: as, b :: bs =>
    if a.toNat < b.toNat then true
    else if b.toNat < a.toNat then false
    else strLtB as bs

/-- Key order on strings. -/
def strLt (a b : String) : Bool := strLtB a.data b.data

/-- Key order for the ComputeGraphs partition: keys encode
`(namespace, name)` so that a namespace prefix is a contiguous range. -/
def keyLt (a b : String × String) : Bool :=
  if strLt a.1 b.1 then true
  else if a.1 = b.1 then strLt a.2 b.2
  else false

/-- Order-preserving upsert into the Namespaces partition. -/
def insertNs (k : String) (v : NamespaceRec) :
    List (String × NamespaceRec) → List (String × NamespaceRec)
  | [] => [(k, v)]
  | (k2, v2) :: rest =>
    if k = k2 then (k, v) :: rest
    else if strLt k k2 then (k, v) :: (k2, v2) :: rest
    else (k2, v2) :: insertNs k v rest

/-- Order-preserving upsert into the ComputeGraphs partition. -/
def insertCG (k : String × String) (v : ComputeGraph) :
    List ((String × String) × ComputeGraph) → List ((String × String) × ComputeGraph)
  | [] => [(k, v)]
  | (k2, v2) :: rest =>
    if k = k2 then (k, v) :: rest
    else if keyLt k k2 then (k, v) :: (k2, v2) :: rest
    else (k2, v2) :: insertCG k v rest

/-- Order-preserving insert into the secondary listing index (a key-only
partition of `(namespace, name)` entries). -/
def insertIdx (k : String × String) :
    List (String × String) → List (String × String)
  | [] => [k]
  | k2 :: rest =>
    if k = k2 then k2 :: rest
    else if keyLt k k2 then k :: k2 :: rest
    else k2 :: insertIdx k rest

/-- The observable state of the embedded store: the Namespaces partition,
the ComputeGraphs partition keyed by `(namespace, name)`, and the secondary
index the implementation maintains for listing. -/
structure StoreState where
  namespaces : List (String × NamespaceRec)
  compute_graphs : List ((String × String) × ComputeGraph)
  graph_index : List (String × String)
deriving DecidableEq

/-- Point lookup in the Namespaces partition. -/
def lookupNs (st : StoreState) (k : String) : Option NamespaceRec :=
  (st.namespaces.find? (fun e => e.1 = k)).map (fun e => e.2)

/-- Modelled from the spec: `scanner::StateReader::get_compute_graph` is a
point lookup of the latest committed value keyed `(namespace, name)`. -/
def get_compute_graph (st : StoreState) (ns name : String) : Option ComputeGraph :=
  (st.compute_graphs.find? (fun e => e.1 = (ns, name))).map (fun e => e.2)

/-- Modelled from the spec: `state_machine::create_namespace` writes the
record under the Namespaces partition keyed by `name`; no uniqueness or
existence check is performed before the write. -/
def sm_create_namespace (st : StoreState) (n : NamespaceRec) : StoreState :=
  { st with namespaces := insertNs n.name n st.namespaces }

/-- `IndexifyState::create_namespace` (lib.rs lines 55-62): builds the
Namespace record with the current epoch timestamp (passed here as `now`)
and hands it to the state machine. -/
def create_namespace (now : Nat) (st : StoreState) (name : String) : StoreState :=
  sm_create_namespace st ⟨name, now⟩

/-- Modelled from the spec: `state_machine::create_compute_graph` writes
the primary record keyed `(namespace, name)` and the secondary listing
index entry in one atomic transaction. -/
def sm_create_compute_graph (st : StoreState) (cg : ComputeGraph) : StoreState :=
  { st with
    compute_graphs := insertCG (cg.nspace, cg.name) cg st.compute_graphs,
    graph_index := insertIdx (cg.nspace, cg.name) st.graph_index }

/-! Delete path.  `IndexifyState::delete_compute_graph` (lib.rs lines
73-81) opens an explicit transaction, runs the state-machine removal inside
it, and commits only afterwards; an error propagates before `txn.commit()`
is reached.  The transaction is modelled as a pending write set applied
atomically at commit. -/

/-- A pending write recorded inside an open transaction. -/
inductive WriteOp
  | delCG (k : String × String)
  | delIdx (k : String × String)
deriving DecidableEq

/-- Applying one committed write to the store. -/
def applyOp (st : StoreState) : WriteOp → StoreState
  | WriteOp.delCG k =>
    { st with compute_graphs := st.compute_graphs.filter (fun e => ¬ e.1 = k) }
  | WriteOp.delIdx k =>
    { st with graph_index := st.graph_index.filter (fun e => ¬ e = k) }

/-- Committing a transaction applies its pending writes in order. -/
def commitTxn (st : StoreState) (ops : List WriteOp) : StoreState :=
  ops.foldl applyOp st

/-- Modelled from the spec: `state_machine::delete_compute_graph` queues
removal of the primary record and then of the secondary index entry into
the open transaction; either step may fail (`failPrimary`, `failIndex` are
failure oracles for the two steps), in which case the error is returned
with the transaction uncommitted. -/
def sm_delete_compute_graph (failPrimary failIndex : Bool) (ns name : String) :
    Except Unit (List WriteOp) :=
  if failPrimary then Except.error ()
  else if failIndex then Except.error ()
  else Except.ok [WriteOp.delCG (ns, name), WriteOp.delIdx (ns, name)]

/-- `IndexifyState::delete_compute_graph` (lib.rs lines 73-81): transaction
opened, state-machine removal run inside it, commit reached only on
success.  On error no new state is produced: the store remains the input
state. -/
def delete_compute_graph (failPrimary failIndex : Bool) (st : StoreState)
    (ns name : String) : Except Unit StoreState :=
  match sm_delete_compute_graph failPrimary failIndex ns name with
  | Except.error e => Except.error e
  | Except.ok ops => Except.ok (commitTxn st ops)

/-! Listing / pagination (scanner read path, modelled from the spec §4.3). -/

/-- A key position is past the cursor: with an absent cursor every key
qualifies (start of partition); with a cursor, exactly the keys strictly
after the encoded position. -/
def afterCur (cur : Option (String × String)) (k : String × String) : Bool :=
  match cur with
  | none => true
  | some c => keyLt c k

/-- Modelled from the spec: the scanner iterates the partition in key
order, skipping entries outside the namespace or at/before the cursor
position, and collects entries until the bounded page size is exhausted or
the partition ends. -/
def scanCG (ns : String) (cur : Option (String × String)) :
    List ((String × String) × ComputeGraph) → Nat →
      List ((String × String) × ComputeGraph)
  | [], _ => []
  | _ :: _, 0 => []
  | e :: rest, Nat.succ limit =>
    if e.1.1 = ns ∧ afterCur cur e.1 = true then e :: scanCG ns cur rest limit
    else scanCG ns cur rest (Nat.succ limit)

/-- Modelled from the spec: `scanner::StateReader::list_compute_graphs`
returns one page of the namespace's graphs together with an opaque cursor
token encoding the last key visited, for resumption. -/
def list_compute_graphs (st : StoreState) (ns : String)
    (cur : Option (String × String)) (limit : Nat) :
    List ComputeGraph × Option (String × String) :=
  let page := scanCG ns cur st.compute_graphs limit
  (page.map (fun e => e.2), page.getLast?.map (fun e => e.1))

/-- The response body of the HTTP list endpoint. -/
structure ComputeGraphsList where
  compute_graphs : List ComputeGraph
  cursor : Option (String × String)
deriving DecidableEq

/-- `list_compute_graphs` route handler (routes.rs lines 269-282): its
inputs are the path namespace and the shared state only; it invokes the
reader with cursor `None`. -/
def http_list_compute_graphs (st : StoreState) (ns : String) (limit : Nat) :
    ComputeGraphsList :=
  let r := list_compute_graphs st ns none limit
  ⟨r.1, r.2⟩

/-! The create-compute-graph upload handler (routes.rs lines 182-244). -/

/-- Modelled from the spec: `nanoid!()` produces a collision-resistant
unique suffix; modelled as an injective function of a freshness counter. -/
def nanoid (c : Nat) : String := String.mk (List.replicate c 'x')

/-- The destination name `format!("{}_{}", namespace, nanoid!())` of
routes.rs line 202. -/
def mkFileName (ns : String) (c : Nat) : String := ns ++ "_" ++ nanoid c

/-- Modelled from the spec: the locator under which the blob store makes
the bytes stored as `file_name` retrievable. -/
def putUrl (file_name : String) : String := "blob:" ++ file_name

/-- The blob descriptor `WriteStreamResult` assembled at routes.rs lines
206-213. -/
structure WriteStreamResult where
  url : String
  size_bytes : Nat
  hash : String
  file_name : String
deriving DecidableEq

/-- A blob committed by a successful `put`: the retrievable bytes under
their stored name. -/
structure BlobRec where
  file_name : String
  bytes : Bytes
deriving DecidableEq

/-- The caller-facing error type `IndexifyAPIError`, restricted to the
constructors the handler uses. -/
inductive ApiError
  | badRequest (msg : String)
  | internalError
deriving DecidableEq

/-- Whether an error is the client-error (`BadRequest`) variant. -/
def ApiError.is_bad_request : ApiError → Bool
  | ApiError.badRequest _ => true
  | ApiError.internalError => false

/-- The handler's outcome: a successful response, an error response, or a
panic (an `unwrap` on an error value, no response produced at all). -/
inductive HResult
  | ok
  | err (e : ApiError)
  | panicked
deriving DecidableEq

/-- Whether the outcome is a client error response. -/
def HResult.client_error : HResult → Bool
  | HResult.err e => e.is_bad_request
  | _ => false

/-- One multipart field as the handler consumes it: its declared name, its
chunk stream (used when the field is `code`), and the result of reading it
as text (used when the field is `compute_graph`). -/
structure MPField where
  name : Option String
  stream : List (Except Unit Bytes)
  text : Except Unit String

/-- Outcome of the handler's field loop: a panic from the `unwrap` at
routes.rs line 189, an early error return, or loop completion with the
accumulated definition, descriptor and committed blobs. -/
inductive LoopOut
  | panicked (blobs : List BlobRec)
  | errored (e : ApiError) (blobs : List BlobRec)
  | done (cgDef : Option ComputeGraphDef) (wr : Option WriteStreamResult)
      (blobs : List BlobRec)

/-- The `while let` field loop of routes.rs lines 189-219.  `digest` is the
hex-encoded SHA-256 digest function realised by the `sha2` crate (abstract
here); `parseGraph` is `serde_json::from_str`; `ctr` feeds `nanoid`.  A
field named `code` is streamed through the blob store with the running
digest folded over each chunk as it is polled; on success the descriptor
replaces any earlier one and the blob is committed.  A field named
`compute_graph` is read as text and parsed, replacing any earlier
definition.  Unnamed and unrecognised fields are skipped. -/
def handlerLoop (digest : Bytes → String)
    (parseGraph : String → Except Unit ComputeGraphDef) (ns : String) :
    List (Except Unit MPField) → Option ComputeGraphDef →
      Option WriteStreamResult → List BlobRec → Nat → LoopOut
  | [], cg, wr, blobs, _ => LoopOut.done cg wr blobs
  | Except.error _ :: _, _, _, blobs, _ => LoopOut.panicked blobs
  | Except.ok f :: rest, cg, wr, blobs, ctr =>
    match f.name with
    | none => handlerLoop digest parseGraph ns rest cg wr blobs ctr
    | some n =>
      if n = "code" then
        let fn := mkFileName ns ctr
        let p := processStream f.stream
        match p.result with
        | Except.error _ => LoopOut.errored ApiError.internalError blobs
        | Except.ok size =>
          handlerLoop digest parseGraph ns rest cg
            (some ⟨putUrl fn, size, digest p.hashed, fn⟩)
            (blobs ++ [⟨fn, p.written⟩]) (ctr + 1)
      else if n = "compute_graph" then
        match f.text with
        | Except.error _ =>
          LoopOut.errored (ApiError.badRequest "field text error") blobs
        | Except.ok t =>
          match parseGraph t with
          | Except.error _ =>
            LoopOut.errored (ApiError.badRequest "unparseable graph") blobs
          | Except.ok d => handlerLoop digest parseGraph ns rest (some d) wr blobs ctr
      else handlerLoop digest parseGraph ns rest cg wr blobs ctr

/-- Everything the handler leaves behind: its response, the resulting store
state, the blobs committed to blob storage, and the mutation requests it
submitted to the state machine. -/
structure HandlerOut where
  result : HResult
  store : StoreState
  blobs : List BlobRec
  submitted : List ComputeGraph

/-- `create_compute_graph` (routes.rs lines 182-244): run the field loop;
then reject a missing graph definition, then missing code, both as
`BadRequest`; otherwise rewrite the definition with the descriptor's url
and submit the `CreateComputeGraph` mutation. -/
def create_compute_graph_handler (digest : Bytes → String)
    (parseGraph : String → Except Unit ComputeGraphDef) (ns : String)
    (fields : List (Except Unit MPField)) (st : StoreState) : HandlerOut :=
  match handlerLoop digest parseGraph ns fields none none [] 0 with
  | LoopOut.panicked blobs => ⟨HResult.panicked, st, blobs, []⟩
  | LoopOut.errored e blobs => ⟨HResult.err e, st, blobs, []⟩
  | LoopOut.done cg wr blobs =>
    match cg with
    | none =>
      ⟨HResult.err (ApiError.badRequest "Compute graph definition is required"),
       st, blobs, []⟩
    | some d =>
      match wr with
      | none => ⟨HResult.err (ApiError.badRequest "Code is required"), st, blobs, []⟩
      | some w =>
        let g := d.into_data_model w.url
        ⟨HResult.ok, sm_create_compute_graph st g, blobs, [g]⟩

/-! Well-formedness of multipart inputs, used to describe the handler's
behaviour on requests whose present fields all process cleanly. -/

/-- Boolean success test for `Except`. -/
def okb {ε α : Type} : Except ε α → Bool
  | Except.ok _ => true
  | Except.error _ => false

/-- A multipart item carries a field with the given name. -/
def fieldIsNamed (n : String) : Except Unit MPField → Bool
  | Except.ok f => decide (f.name = some n)
  | Except.error _ => false

/-- The request contains a field with the given name. -/
def hasField (n : String) (fields : List (Except Unit MPField)) : Bool :=
  fields.any (fieldIsNamed n)

/-- A multipart item processes without error: the item itself is not an
iteration error, a `code` field has an error-free stream, and a
`compute_graph` field reads and parses successfully. -/
def fieldWF (parseGraph : String → Except Unit ComputeGraphDef) :
    Except Unit MPField → Bool
  | Except.error _ => false
  | Except.ok f =>
    match f.name with
    | none => true
    | some n =>
      if n = "code" then f.stream.all (fun x => okb x)
      else if n = "compute_graph" then
        match f.text with
        | Except.error _ => false
        | Except.ok t => okb (parseGraph t)
      else true

/-! Concrete fixtures used by witness and counterexample theorems. -/

/-- A concrete digest function standing in for hex-encoded SHA-256. -/
def digest0 : Bytes → String := fun b => String.mk (List.replicate b.length 'h')

/-- A concrete graph definition. -/
def def0 : ComputeGraphDef := ⟨"ns1", "g1", [("a", Node.computeFn)], 7⟩

/-- A concrete parse function that accepts every text as `def0`. -/
def parse0 : String → Except Unit ComputeGraphDef := fun _ => Except.ok def0

/-- A concrete parse function that rejects every text. -/
def parseFail : String → Except Unit ComputeGraphDef := fun _ => Except.error ()

/-- The empty store. -/
def st0 : StoreState := ⟨[], [], []⟩

/-- A store holding one namespace record named `a`. -/
def stNs : StoreState := ⟨[("a", ⟨"a", 1⟩)], [], []⟩

/-- A store holding one compute graph `(n, g)` with its index entry. -/
def stG : StoreState :=
  ⟨[], [(("n", "g"), ⟨"n", "g", "u", [], 0⟩)], [("n", "g")]⟩

/-- A concrete graph `a` in namespace `n`. -/
def gA : ComputeGraph := ⟨"n", "a", "u1", [], 0⟩

/-- A concrete graph `b` in namespace `n`. -/
def gB : ComputeGraph := ⟨"n", "b", "u2", [], 0⟩

/-- A store holding the two graphs `a` and `b` of namespace `n`. -/
def st8 : StoreState :=
  ⟨[], [(("n", "a"), gA), (("n", "b"), gB)], [("n", "a"), ("n", "b")]⟩

/-! Helper lemmas about the upload pipeline. -/

/-- On an error-free stream the pipeline hashes and writes every chunk, in
stream order with the digest fold preceding the write of each chunk, and
reports the total byte count. -/
theorem processStream_map_ok (chunks : List Bytes) :
    processStream (chunks.map Except.ok) =
      ⟨(chunks.map (fun c => [Evt.hash c, Evt.write c])).flatten,
       chunks.flatten, chunks.flatten, Except.ok chunks.flatten.length⟩ := by
  induction chunks with
  | nil => rfl
  | cons c rest ih =>
    simp [processStream, ih, Except.map, List.length_append]

/-- A stream that errors after its error-free prefix makes the pipeline
report `StreamError`; the prefix chunks were already hashed and written. -/
theorem processStream_error (pre : List Bytes) (rest : List (Except Unit Bytes)) :
    processStream (pre.map Except.ok ++ Except.error () :: rest) =
      ⟨(pre.map (fun c => [Evt.hash c, Evt.write c])).flatten,
       pre.flatten, pre.flatten, Except.error PutErr.streamError⟩ := by
  induction pre with
  | nil => rfl
  | cons c rest2 ih =>
    simp [processStream, List.append_eq] at ih ⊢
    simp [ih, Except.map]

/-- The modelled fresh suffix has the counter as its length. -/
theorem nanoid_length (c : Nat) : (nanoid c).length = c := by
  simp [nanoid, String.length]

/-- Distinct freshness counters give distinct blob locators. -/
theorem putUrl_mkFileName_ne (ns : String) (c c2 : Nat) (h : ¬ c = c2) :
    ¬ putUrl (mkFileName ns c) = putUrl (mkFileName ns c2) := by
  intro he
  have hl := congrArg String.length he
  simp only [putUrl, mkFileName, String.length_append, nanoid_length] at hl
  exact h (by omega)

/-! Helper lemmas about the partition primitives. -/

theorem find?_insertNs_self (k : String) (v : NamespaceRec)
    (l : List (String × NamespaceRec)) :
    (insertNs k v l).find? (fun e => e.1 = k) = some (k, v) := by
  induction l with
  | nil => simp [insertNs]
  | cons e rest ih =>
    by_cases h1 : k = e.1
    · simp [insertNs, h1]
    · by_cases h2 : strLt k e.1 = true
      · simp [insertNs, h1, h2]
      · have h1s : ¬ e.1 = k := fun h => h1 h.symm
        simp only [insertNs, if_neg h1, if_neg h2]
        simp [List.find?_cons, h1s, ih]

theorem find?_insertNs_other (k k2 : String) (v : NamespaceRec)
    (l : List (String × NamespaceRec)) (hk : ¬ k2 = k) :
    (insertNs k v l).find? (fun e => e.1 = k2) = l.find? (fun e => e.1 = k2) := by
  have hks : ¬ k = k2 := fun h => hk h.symm
  induction l with
  | nil => simp [insertNs, List.find?_cons, hks]
  | cons e rest ih =>
    by_cases h1 : k = e.1
    · have he : ¬ e.1 = k2 := by
        rw [← h1]
        exact hks
      simp only [insertNs, if_pos h1]
      simp [List.find?_cons, hks, he]
    · by_cases h2 : strLt k e.1 = true
      · simp only [insertNs, if_neg h1, if_pos h2]
        simp [List.find?_cons, hks]
      · simp only [insertNs, if_neg h1, if_neg h2]
        obtain ⟨e1, e2⟩ := e
        by_cases h3 : e1 = k2
        · simp [List.find?_cons, h3]
        · simp [List.find?_cons, h3, ih]

theorem find?_insertCG_self (k : String × String) (v : ComputeGraph)
    (l : List ((String × String) × ComputeGraph)) :
    (insertCG k v l).find? (fun e => e.1 = k) = some (k, v) := by
  induction l with
  | nil => simp [insertCG]
  | cons e rest ih =>
    by_cases h1 : k = e.1
    · simp [insertCG, h1]
    · by_cases h2 : keyLt k e.1 = true
      · simp [insertCG, h1, h2]
      · have h1s : ¬ e.1 = k := fun h => h1 h.symm
        simp only [insertCG, if_neg h1, if_neg h2]
        simp [List.find?_cons, h1s, ih]

theorem find?_filter_ne_none (k : String × String)
    (l : List ((String × String) × ComputeGraph)) :
    (l.filter (fun e => ¬ e.1 = k)).find? (fun e => e.1 = k) = none := by
  induction l with
  | nil => simp
  | cons e rest ih =>
    by_cases h : e.1 = k
    · rw [List.filter_cons, if_neg (by simp [h])]
      exact ih
    · rw [List.filter_cons, if_pos (by simp [h])]
      simp [List.find?_cons, h, ih]

/-- The scanner page is the first `limit` in-range entries of the
partition: the entries of the namespace strictly after the cursor, in
partition order. -/
theorem scanCG_eq_filter_take (ns : String) (cur : Option (String × String))
    (l : List ((String × String) × ComputeGraph)) (limit : Nat) :
    scanCG ns cur l limit =
      (l.filter (fun e => decide (e.1.1 = ns) && afterCur cur e.1)).take limit := by
  induction l generalizing limit with
  | nil => cases limit <;> rfl
  | cons e rest ih =>
    cases limit with
    | zero =>
      simp only [scanCG, List.take_zero]
    | succ m =>
      by_cases h : e.1.1 = ns ∧ afterCur cur e.1 = true
      · have hb : (decide (e.1.1 = ns) && afterCur cur e.1) = true := by
          simp [h.1, h.2]
        simp only [scanCG, if_pos h, List.filter_cons, if_pos hb,
          List.take_succ_cons, ih]
      · have hb : ¬ (decide (e.1.1 = ns) && afterCur cur e.1) = true := by
          intro hc
          simp only [Bool.and_eq_true, decide_eq_true_eq] at hc
          exact h hc
        simp only [scanCG, if_neg h, List.filter_cons, if_neg hb, ih]

/-- An error-free stream always drives the pipeline to a size result. -/
theorem processStream_result_ok (s : List (Except Unit Bytes))
    (h : s.all (fun x => okb x) = true) :
    ∃ sz, (processStream s).result = Except.ok sz := by
  induction s with
  | nil => exact ⟨0, rfl⟩
  | cons x rest ih =>
    cases x with
    | error e => simp [okb] at h
    | ok c =>
      simp only [List.all_cons, Bool.and_eq_true] at h
      obtain ⟨sz, hsz⟩ := ih h.2
      exact ⟨c.length + sz, by simp [processStream, hsz, Except.map]⟩

/-- On a request whose fields all process cleanly, the field loop runs to
completion; the descriptor is absent at the end exactly when it was absent
at entry and no `code` field occurred, and likewise for the graph
definition and `compute_graph` fields. -/
theorem handlerLoop_wf (digest : Bytes → String)
    (parseGraph : String → Except Unit ComputeGraphDef) (ns : String)
    (fields : List (Except Unit MPField)) (cg0 : Option ComputeGraphDef)
    (wr0 : Option WriteStreamResult) (blobs0 : List BlobRec) (ctr : Nat)
    (h : fields.all (fieldWF parseGraph) = true) :
    ∃ cg wr blobs,
      handlerLoop digest parseGraph ns fields cg0 wr0 blobs0 ctr =
        LoopOut.done cg wr blobs
      ∧ (wr = none ↔ (wr0 = none ∧ hasField "code" fields = false))
      ∧ (cg = none ↔ (cg0 = none ∧ hasField "compute_graph" fields = false)) := by
  induction fields generalizing cg0 wr0 blobs0 ctr with
  | nil =>
    exact ⟨cg0, wr0, blobs0, rfl, by simp [hasField], by simp [hasField]⟩
  | cons x rest ih =>
    simp only [List.all_cons, Bool.and_eq_true] at h
    obtain ⟨hf, hrest⟩ := h
    cases x with
    | error e => simp [fieldWF] at hf
    | ok f =>
      cases hn : f.name with
      | none =>
        obtain ⟨cg, wr, blobs, hdone, hwr, hcg⟩ := ih cg0 wr0 blobs0 ctr hrest
        refine ⟨cg, wr, blobs, ?_, ?_, ?_⟩
        · simp only [handlerLoop, hn]
          exact hdone
        · simpa [hasField, fieldIsNamed, hn] using hwr
        · simpa [hasField, fieldIsNamed, hn] using hcg
      | some n =>
        by_cases hc : n = "code"
        · subst hc
          have hs : f.stream.all (fun x => okb x) = true := by
            simpa [fieldWF, hn] using hf
          obtain ⟨sz, hsz⟩ := processStream_result_ok f.stream hs
          obtain ⟨cg, wr, blobs, hdone, hwr, hcg⟩ :=
            ih cg0
              (some ⟨putUrl (mkFileName ns ctr), sz,
                digest (processStream f.stream).hashed, mkFileName ns ctr⟩)
              (blobs0 ++ [⟨mkFileName ns ctr, (processStream f.stream).written⟩])
              (ctr + 1) hrest
          refine ⟨cg, wr, blobs, ?_, ?_, ?_⟩
          · simp only [handlerLoop, hn, if_pos rfl, hsz]
            exact hdone
          · simp only [hasField, fieldIsNamed, List.any_cons, hn] at *
            simp only [hwr]
            simp
          · simpa [hasField, fieldIsNamed, hn] using hcg
        · by_cases hg : n = "compute_graph"
          · subst hg
            cases ht : f.text with
            | error e => simp [fieldWF, hn, ht] at hf
            | ok t =>
              cases hpt : parseGraph t with
              | error e => simp [fieldWF, hn, ht, hpt, okb] at hf
              | ok d =>
                obtain ⟨cg, wr, blobs, hdone, hwr, hcg⟩ :=
                  ih (some d) wr0 blobs0 ctr hrest
                have hcn : ¬ ("compute_graph" = "code") := by decide
                refine ⟨cg, wr, blobs, ?_, ?_, ?_⟩
                · simp only [handlerLoop, hn, if_neg hcn, if_pos rfl, ht, hpt]
                  exact hdone
                · simpa [hasField, fieldIsNamed, hn] using hwr
                · simp only [hasField, fieldIsNamed, List.any_cons, hn] at *
                  simp only [hcg]
                  simp
          · obtain ⟨cg, wr, blobs, hdone, hwr, hcg⟩ := ih cg0 wr0 blobs0 ctr hrest
            refine ⟨cg, wr, blobs, ?_, ?_, ?_⟩
            · simp only [handlerLoop, hn, if_neg hc, if_neg hg]
              exact hdone
            · simpa [hasField, fieldIsNamed, hn, hc] using hwr
            · simpa [hasField, fieldIsNamed, hn, hg] using hcg

/-! Claim theorems. -/

/-- C2: Hash and size integrity: for every byte payload `P = chunks.flatten`
streamed through the blob-store upload path in any chunking, the descriptor
returned carries `hash` equal to the digest (the hex-encoded SHA-256
realised by the `sha2` crate, abstract here) of the full concatenated
payload computed independently, and `size_bytes` equal to the length of
`P`; the blob committed holds exactly `P`. -/
theorem c2_hash_size_integrity (digest : Bytes → String)
    (parseGraph : String → Except Unit ComputeGraphDef) (ns : String)
    (chunks : List Bytes) (ctext : Except Unit String)
    (cg0 : Option ComputeGraphDef) (blobs0 : List BlobRec) (ctr : Nat) :
    handlerLoop digest parseGraph ns
        [Except.ok ⟨some "code", chunks.map Except.ok, ctext⟩] cg0 none blobs0 ctr =
      LoopOut.done cg0
        (some ⟨putUrl (mkFileName ns ctr), chunks.flatten.length,
          digest chunks.flatten, mkFileName ns ctr⟩)
        (blobs0 ++ [⟨mkFileName ns ctr, chunks.flatten⟩]) := by
  simp [handlerLoop, processStream_map_ok]

/-- C3 counterexample: the claim says each chunk is first written and then
folded into the digest; on the one-chunk stream `[[1]]` the pipeline's
event trace is `[hash, write]`, not `[write, hash]`: the `map` closure of
routes.rs lines 195-200 updates the hasher when the chunk is polled,
before `put` writes it. -/
theorem c3_order_counterexample :
    ¬ (processStream [Except.ok [1]]).events = [Evt.write [1], Evt.hash [1]] := by
  decide

/-- C3 amended: for every chunk received from the upload stream, the chunk
is first folded into the running digest and then written to the backing
medium, in that order, before the next chunk is requested. -/
theorem c3_order_amended (chunks : List Bytes) :
    (processStream (chunks.map Except.ok)).events =
      (chunks.map (fun c => [Evt.hash c, Evt.write c])).flatten := by
  simp [processStream_map_ok]

/-- C5: Streaming failure yields StreamError and no descriptor: when the
input stream errors after `N > 0` bytes, the blob-store put reports
`StreamError`, and the handler returns an error with no blob committed, no
store change and no mutation submitted — no retrievable descriptor of a
truncated object exists. -/
theorem c5_stream_error_no_descriptor (digest : Bytes → String)
    (parseGraph : String → Except Unit ComputeGraphDef) (ns : String)
    (pre : List Bytes) (rest : List (Except Unit Bytes))
    (ctext : Except Unit String) (st : StoreState)
    (h : 0 < pre.flatten.length) :
    (processStream (pre.map Except.ok ++ Except.error () :: rest)).result =
      Except.error PutErr.streamError
    ∧ create_compute_graph_handler digest parseGraph ns
        [Except.ok ⟨some "code", pre.map Except.ok ++ Except.error () :: rest, ctext⟩]
        st =
      ⟨HResult.err ApiError.internalError, st, [], []⟩ := by
  refine ⟨by simp [processStream_error], ?_⟩
  simp [create_compute_graph_handler, handlerLoop, processStream_error]

/-- C5 witness: a concrete stream erroring after one byte. -/
theorem c5_stream_error_no_descriptor_witness :
    0 < ([[1]] : List Bytes).flatten.length
    ∧ ((processStream ([[1]].map Except.ok ++ Except.error () :: [])).result =
        Except.error PutErr.streamError
      ∧ create_compute_graph_handler digest0 parse0 "n"
          [Except.ok ⟨some "code", [[1]].map Except.ok ++ Except.error () :: [],
            Except.ok ""⟩] st0 =
        ⟨HResult.err ApiError.internalError, st0, [], []⟩) :=
  ⟨by decide,
   c5_stream_error_no_descriptor digest0 parse0 "n" [[1]] [] (Except.ok "") st0
     (by decide)⟩

/-- C9: for some multipart input whose field iteration yields an error (a
malformed multipart body), the handler panics — the `unwrap` at routes.rs
line 189 — rather than returning any error response. -/
theorem c9_multipart_error_panics :
    create_compute_graph_handler digest0 parse0 "ns" [Except.error ()] st0 =
      ⟨HResult.panicked, st0, [], []⟩ := rfl

/-- C4: Delete atomicity: `DeleteComputeGraph` opens one explicit
transaction, removes the primary record and all secondary index entries
inside it, and commits; if either removal step fails the transaction is
never committed and no new state is produced — the store observable
afterwards is exactly the input state. -/
theorem c4_delete_atomicity (fp fi : Bool) (st : StoreState) (ns name : String) :
    ((fp = true ∨ fi = true) →
      delete_compute_graph fp fi st ns name = Except.error ())
    ∧ (∀ st2, delete_compute_graph fp fi st ns name = Except.ok st2 →
        get_compute_graph st2 ns name = none
        ∧ ¬ (ns, name) ∈ st2.graph_index
        ∧ st2.namespaces = st.namespaces)
    ∧ (fp = false → fi = false →
        ∃ st2, delete_compute_graph fp fi st ns name = Except.ok st2) := by
  cases fp with
  | true =>
    refine ⟨fun _ => rfl, ?_, ?_⟩
    · intro st2 h
      exact absurd h (by simp [delete_compute_graph, sm_delete_compute_graph])
    · intro h
      exact absurd h (by simp)
  | false =>
    cases fi with
    | true =>
      refine ⟨fun _ => rfl, ?_, ?_⟩
      · intro st2 h
        exact absurd h (by simp [delete_compute_graph, sm_delete_compute_graph])
      · intro _ h
        exact absurd h (by simp)
    | false =>
      refine ⟨?_, ?_, ?_⟩
      · intro h
        rcases h with h | h <;> exact absurd h (by simp)
      · intro st2 h
        have h2 : commitTxn st [WriteOp.delCG (ns, name), WriteOp.delIdx (ns, name)] = st2 := by
          simpa [delete_compute_graph, sm_delete_compute_graph] using h
        subst h2
        refine ⟨?_, ?_, rfl⟩
        · simp [commitTxn, applyOp, get_compute_graph, find?_filter_ne_none]
        · simp [commitTxn, applyOp, List.mem_filter]
      · intro _ _
        exact ⟨_, rfl⟩

/-- C4 witness: on a store holding graph `(n, g)`, the failing delete
returns the error with the store untouched, and the succeeding delete
leaves neither the record nor its index entry. -/
theorem c4_delete_atomicity_witness :
    delete_compute_graph true false stG "n" "g" = Except.error ()
    ∧ (get_compute_graph (StoreState.mk [] [] []) "n" "g" = none
      ∧ ¬ ("n", "g") ∈ (StoreState.mk [] [] []).graph_index
      ∧ (StoreState.mk [] [] []).namespaces = stG.namespaces) :=
  ⟨(c4_delete_atomicity true false stG "n" "g").1 (Or.inl rfl),
   (c4_delete_atomicity false false stG "n" "g").2.1 (StoreState.mk [] [] [])
     rfl⟩

/-- C7: CreateNamespace upsert semantics: the call builds a record whose
`created_at` is the timestamp of the call and writes it under the
Namespaces partition keyed by name, with no uniqueness or existence check:
it always succeeds, an existing record under the same name is overwritten,
and every other key is untouched. -/
theorem c7_create_namespace_upsert (now : Nat) (st : StoreState) (name : String) :
    lookupNs (create_namespace now st name) name = some ⟨name, now⟩
    ∧ ∀ k, ¬ k = name → lookupNs (create_namespace now st name) k = lookupNs st k := by
  constructor
  · simp [lookupNs, create_namespace, sm_create_namespace, find?_insertNs_self]
  · intro k hk
    simp [lookupNs, create_namespace, sm_create_namespace,
      find?_insertNs_other _ _ _ _ hk]

/-- C7 witness: creating namespace `a` over a store already holding an `a`
record overwrites it, and an unrelated key is preserved. -/
theorem c7_create_namespace_upsert_witness :
    lookupNs (create_namespace 5 stNs "a") "a" = some ⟨"a", 5⟩
    ∧ lookupNs (create_namespace 5 stNs "b") "c" = lookupNs stNs "c" :=
  ⟨(c7_create_namespace_upsert 5 stNs "a").1,
   (c7_create_namespace_upsert 5 stNs "b").2 "c" (by decide)⟩

/-- C8 counterexample: the claim says a caller of the HTTP list endpoint
can supply a cursor from a previous page to resume the scan; but the route
handler (routes.rs lines 269-282) takes only the path namespace and always
invokes the reader with cursor `None`.  Concretely: with two graphs and
page size 1, the endpoint's response is always the first page with graph
`a`, while resuming from the returned cursor would yield graph `b`; the
endpoint has no input through which that cursor can be supplied. -/
theorem c8_cursor_counterexample :
    http_list_compute_graphs st8 "n" 1 = ⟨[gA], some ("n", "a")⟩
    ∧ (list_compute_graphs st8 "n" (some ("n", "a")) 1).1 = [gB]
    ∧ ¬ gA = gB := by
  refine ⟨?_, ?_, by decide⟩ <;> rfl

/-- C8 amended: the state-reader list operation accepts an optional cursor
and the scan starts after the position it encodes (an absent cursor being
the start of the namespace's range), returning the first `limit` such
entries; the HTTP list endpoint, however, accepts no cursor and always
invokes the reader with `None`, so its callers always receive the first
page. -/
theorem c8_cursor_amended (st : StoreState) (ns : String)
    (cur : Option (String × String)) (limit : Nat) :
    http_list_compute_graphs st ns limit =
      ⟨(list_compute_graphs st ns none limit).1,
       (list_compute_graphs st ns none limit).2⟩
    ∧ (list_compute_graphs st ns cur limit).1 =
        ((st.compute_graphs.filter
            (fun e => decide (e.1.1 = ns) && afterCur cur e.1)).take limit).map
          (fun e => e.2) := by
  exact ⟨rfl, by simp [list_compute_graphs, scanCG_eq_filter_take]⟩

/-- C1: Graph identity round-trip: submitting a code payload and a graph
definition through the create-compute-graph path succeeds, and
`get_compute_graph` on the submitted namespace and name afterwards returns
a record structurally equal to the submitted definition with `code_url`
equal to the url of the descriptor produced for the uploaded code. -/
theorem c1_graph_identity (digest : Bytes → String)
    (parseGraph : String → Except Unit ComputeGraphDef) (ns : String)
    (chunks : List Bytes) (ctext : Except Unit String)
    (cstream : List (Except Unit Bytes)) (t : String) (d : ComputeGraphDef)
    (st : StoreState) (hp : parseGraph t = Except.ok d) (hns : d.nspace = ns) :
    (create_compute_graph_handler digest parseGraph ns
        [Except.ok ⟨some "code", chunks.map Except.ok, ctext⟩,
         Except.ok ⟨some "compute_graph", cstream, Except.ok t⟩] st).result =
      HResult.ok
    ∧ get_compute_graph
        (create_compute_graph_handler digest parseGraph ns
          [Except.ok ⟨some "code", chunks.map Except.ok, ctext⟩,
           Except.ok ⟨some "compute_graph", cstream, Except.ok t⟩] st).store
        ns d.name =
      some ⟨ns, d.name, putUrl (mkFileName ns 0), d.nodes, d.created_at⟩ := by
  subst hns
  constructor <;>
    simp [create_compute_graph_handler, handlerLoop, processStream_map_ok, hp,
      ComputeGraphDef.into_data_model, get_compute_graph,
      sm_create_compute_graph, find?_insertCG_self]

/-- C1 witness: a concrete submission round-trips. -/
theorem c1_graph_identity_witness :
    (create_compute_graph_handler digest0 parse0 "ns1"
        [Except.ok ⟨some "code", [Except.ok [1, 2]], Except.ok ""⟩,
         Except.ok ⟨some "compute_graph", [], Except.ok "{}"⟩] st0).result =
      HResult.ok
    ∧ get_compute_graph
        (create_compute_graph_handler digest0 parse0 "ns1"
          [Except.ok ⟨some "code", [Except.ok [1, 2]], Except.ok ""⟩,
           Except.ok ⟨some "compute_graph", [], Except.ok "{}"⟩] st0).store
        "ns1" "g1" =
      some ⟨"ns1", "g1", putUrl (mkFileName "ns1" 0), [("a", Node.computeFn)], 7⟩ :=
  c1_graph_identity digest0 parse0 "ns1" [[1, 2]] (Except.ok "") [] "{}" def0 st0
    rfl rfl

/-- C6 counterexample: the claim says every request missing the `code` or
the `compute_graph` field gets a `BadRequest`; but a request with no
`compute_graph` field whose `code` field stream errors is answered with
`InternalError` (routes.rs line 205 maps the put failure to
`internal_error`), a server fault, not a client error. -/
theorem c6_required_fields_counterexample :
    (create_compute_graph_handler digest0 parse0 "n"
        [Except.ok ⟨some "code", [Except.error ()], Except.ok ""⟩] st0).result =
      HResult.err ApiError.internalError
    ∧ HResult.client_error
        ((create_compute_graph_handler digest0 parse0 "n"
          [Except.ok ⟨some "code", [Except.error ()], Except.ok ""⟩] st0).result) =
      false :=
  ⟨rfl, rfl⟩

/-- C6 amended: for every request whose present fields all process cleanly
and in which the `code` field or the `compute_graph` field is absent, the
handler returns a `BadRequest` client error, the store is unchanged and no
`CreateComputeGraph` mutation is submitted. -/
theorem c6_required_fields_amended (digest : Bytes → String)
    (parseGraph : String → Except Unit ComputeGraphDef) (ns : String)
    (fields : List (Except Unit MPField)) (st : StoreState)
    (hwf : fields.all (fieldWF parseGraph) = true)
    (habs : hasField "code" fields = false ∨
      hasField "compute_graph" fields = false) :
    ∃ m,
      (create_compute_graph_handler digest parseGraph ns fields st).result =
        HResult.err (ApiError.badRequest m)
      ∧ (create_compute_graph_handler digest parseGraph ns fields st).store = st
      ∧ (create_compute_graph_handler digest parseGraph ns fields st).submitted =
        [] := by
  obtain ⟨cg, wr, blobs, hdone, hwr, hcg⟩ :=
    handlerLoop_wf digest parseGraph ns fields none none [] 0 hwf
  rcases habs with hab | hab
  · have hwrn : wr = none := hwr.mpr ⟨rfl, hab⟩
    subst hwrn
    cases cg with
    | none =>
      exact ⟨"Compute graph definition is required",
        by simp [create_compute_graph_handler, hdone]⟩
    | some d =>
      exact ⟨"Code is required", by simp [create_compute_graph_handler, hdone]⟩
  · have hcgn : cg = none := hcg.mpr ⟨rfl, hab⟩
    subst hcgn
    exact ⟨"Compute graph definition is required",
      by simp [create_compute_graph_handler, hdone]⟩

/-- C6 amended witness: the empty request is missing both fields and is
rejected as a client error with nothing submitted. -/
theorem c6_required_fields_amended_witness :
    ∃ m,
      (create_compute_graph_handler digest0 parse0 "n" [] st0).result =
        HResult.err (ApiError.badRequest m)
      ∧ (create_compute_graph_handler digest0 parse0 "n" [] st0).store = st0
      ∧ (create_compute_graph_handler digest0 parse0 "n" [] st0).submitted = [] :=
  c6_required_fields_amended digest0 parse0 "n" [] st0 rfl (Or.inl rfl)

/-- C10: with two `code` fields, each is fully streamed to the blob store
as a separate committed blob, but the descriptor used for the graph — and
hence the `code_url` stored in the committed graph — is the one of the
last `code` field processed; the blob of the earlier field remains stored
under a distinct locator the committed graph does not reference. -/
theorem c10_last_code_field_wins (digest : Bytes → String)
    (parseGraph : String → Except Unit ComputeGraphDef) (ns : String)
    (chunks1 chunks2 : List Bytes) (ct1 ct2 : Except Unit String)
    (cstream : List (Except Unit Bytes)) (t : String) (d : ComputeGraphDef)
    (st : StoreState) (hp : parseGraph t = Except.ok d) (hns : d.nspace = ns) :
    (create_compute_graph_handler digest parseGraph ns
        [Except.ok ⟨some "code", chunks1.map Except.ok, ct1⟩,
         Except.ok ⟨some "code", chunks2.map Except.ok, ct2⟩,
         Except.ok ⟨some "compute_graph", cstream, Except.ok t⟩] st).blobs =
      [⟨mkFileName ns 0, chunks1.flatten⟩, ⟨mkFileName ns 1, chunks2.flatten⟩]
    ∧ (create_compute_graph_handler digest parseGraph ns
        [Except.ok ⟨some "code", chunks1.map Except.ok, ct1⟩,
         Except.ok ⟨some "code", chunks2.map Except.ok, ct2⟩,
         Except.ok ⟨some "compute_graph", cstream, Except.ok t⟩] st).submitted =
      [⟨ns, d.name, putUrl (mkFileName ns 1), d.nodes, d.created_at⟩]
    ∧ get_compute_graph
        (create_compute_graph_handler digest parseGraph ns
          [Except.ok ⟨some "code", chunks1.map Except.ok, ct1⟩,
           Except.ok ⟨some "code", chunks2.map Except.ok, ct2⟩,
           Except.ok ⟨some "compute_graph", cstream, Except.ok t⟩] st).store
        ns d.name =
      some ⟨ns, d.name, putUrl (mkFileName ns 1), d.nodes, d.created_at⟩
    ∧ ¬ putUrl (mkFileName ns 0) = putUrl (mkFileName ns 1) := by
  subst hns
  refine ⟨?_, ?_, ?_, putUrl_mkFileName_ne d.nspace 0 1 (by decide)⟩ <;>
    simp [create_compute_graph_handler, handlerLoop, processStream_map_ok, hp,
      ComputeGraphDef.into_data_model, get_compute_graph,
      sm_create_compute_graph, find?_insertCG_self]

/-- C10 witness: a concrete request with two `code` fields. -/
theorem c10_last_code_field_wins_witness :
    (create_compute_graph_handler digest0 parse0 "ns1"
        [Except.ok ⟨some "code", [Except.ok [1]], Except.ok ""⟩,
         Except.ok ⟨some "code", [Except.ok [2, 3]], Except.ok ""⟩,
         Except.ok ⟨some "compute_graph", [], Except.ok "{}"⟩] st0).blobs =
      [⟨mkFileName "ns1" 0, [1]⟩, ⟨mkFileName "ns1" 1, [2, 3]⟩]
    ∧ (create_compute_graph_handler digest0 parse0 "ns1"
        [Except.ok ⟨some "code", [Except.ok [1]], Except.ok ""⟩,
         Except.ok ⟨some "code", [Except.ok [2, 3]], Except.ok ""⟩,
         Except.ok ⟨some "compute_graph", [], Except.ok "{}"⟩] st0).submitted =
      [⟨"ns1", "g1", putUrl (mkFileName "ns1" 1), [("a", Node.computeFn)], 7⟩]
    ∧ get_compute_graph
        (create_compute_graph_handler digest0 parse0 "ns1"
          [Except.ok ⟨some "code", [Except.ok [1]], Except.ok ""⟩,
           Except.ok ⟨some "code", [Except.ok [2, 3]], Except.ok ""⟩,
           Except.ok ⟨some "compute_graph", [], Except.ok "{}"⟩] st0).store
        "ns1" "g1" =
      some ⟨"ns1", "g1", putUrl (mkFileName "ns1" 1), [("a", Node.computeFn)], 7⟩
    ∧ ¬ putUrl (mkFileName "ns1" 0) = putUrl (mkFileName "ns1" 1) :=
  c10_last_code_field_wins digest0 parse0 "ns1" [[1]] [[2, 3]] (Except.ok "")
    (Except.ok "") [] "{}" def0 st0 rfl rfl

end Indexify
